import Mathlib

/-!
Shallow embedding of `src/python/python-oom-demo/oom_demo.py`: the memory-ramp
controller (`ramp_memory_and_fail`), its telemetry event trace, and the shutdown
sequence of `main`.  Machine integers are modelled as `Nat`; Python's
`time.sleep` is an opaque `sleep` event; the `sleep_seconds` float is an opaque
`Nat` parameter since it never influences control flow.  The unbounded
`while True:` loop is modelled with an explicit fuel argument: exhausting the
fuel means the loop is still running (it models a prefix of a nonterminating or
not-yet-terminated execution), never a normal return.
-/

namespace OomDemo

/-- One megabyte in bytes, as used throughout `oom_demo.py` (`1024 * 1024`). -/
def MB : Nat := 1024 * 1024

/-- OpenTelemetry span status codes (`opentelemetry.trace.StatusCode`). -/
inductive StatusCode
  | unset
  | ok
  | error
deriving DecidableEq, Repr

/-- A telemetry event submitted by the ramp controller, in program order:
span creation, span attribute writes, log records (the start log, the
per-chunk "Allocated chunk" log, the error-severity `logger.exception` log),
span exception recording, span status writes, and the inter-chunk sleep. -/
inductive Event
  | spanStart
  | setAttribute (name : String) (value : Nat)
  | logInfo (message : String)
  | logChunk (chunkIndex : Nat) (allocatedMB : Nat)
  | logErr (message : String)
  | spanRecordException (message : String)
  | spanSetStatus (code : StatusCode) (message : String)
  | sleep
deriving DecidableEq, Repr

/-- Is this event the per-chunk "Allocated chunk" log record? -/
def isChunkLog : Event → Bool
  | Event.logChunk _ _ => true
  | _ => false

/-- Is this event a `time.sleep` call? -/
def isSleep : Event → Bool
  | Event.sleep => true
  | _ => false

/-- Is this event a span status write (`span.set_status`)? -/
def isStatus : Event → Bool
  | Event.spanSetStatus _ _ => true
  | _ => false

/-- Is this event a log record (any of `logger.info`, the per-chunk log, or
`logger.exception`)? -/
def isLogRecord : Event → Bool
  | Event.logInfo _ => true
  | Event.logChunk _ _ => true
  | Event.logErr _ => true
  | _ => false

/-- Is this event `span.record_exception`? -/
def isRecordExc : Event → Bool
  | Event.spanRecordException _ => true
  | _ => false

/-- Is this event an error-severity log record (`logger.exception`)? -/
def isErrLog : Event → Bool
  | Event.logErr _ => true
  | _ => false

/-- The loop's cap test, `if max_bytes and (i * chunk_bytes) >= max_bytes:`.
Python truthiness: `None` and `0` are falsy, so the comparison only runs when
`max_bytes` is a nonzero integer. -/
def capTriggered (max_bytes : Option Nat) (bytes : Nat) : Bool :=
  match max_bytes with
  | none => false
  | some m => decide (m ≠ 0) && decide (m ≤ bytes)

/-- The `MemoryError` message,
`f"Reached demo cap of {max_bytes / (1024 * 1024):.1f} MB"`.  The `:.1f`
float format is modelled for the caps the program builds (whole multiples of
one MB), where it prints the MB count followed by `.0`. -/
def capMessage (max_bytes : Option Nat) : String :=
  match max_bytes with
  | none => ""
  | some m => "Reached demo cap of " ++ toString (m / MB) ++ ".0 MB"

/-- How one run of the `while True:` loop body ends. -/
inductive LoopResult
  | memErr (message : String)
  | fuelOut
deriving DecidableEq, Repr

/-- State left behind by the loop: the retained `allocations` list (one entry
per `bytearray`, holding its size), the counter `i`, the event trace so far,
and how the loop ended. -/
structure LoopOut where
  allocations : List Nat
  i : Nat
  events : List Event
  result : LoopResult
deriving DecidableEq, Repr

/-- The `while True:` loop of `ramp_memory_and_fail`, in source order:
append one chunk, increment `i`, emit the per-chunk log record, test the cap
(raising `MemoryError` if reached), else sleep and continue. -/
def rampLoop (chunk_mb chunk_bytes : Nat) (max_bytes : Option Nat) :
    Nat → Nat → List Nat → List Event → LoopOut
  | 0, i, allocs, evs => ⟨allocs, i, evs, LoopResult.fuelOut⟩
  | fuel + 1, i, allocs, evs =>
    if capTriggered max_bytes ((i + 1) * chunk_bytes) then
      ⟨allocs ++ [chunk_bytes], i + 1,
       evs ++ [Event.logChunk (i + 1) ((i + 1) * chunk_mb)],
       LoopResult.memErr (capMessage max_bytes)⟩
    else
      rampLoop chunk_mb chunk_bytes max_bytes fuel (i + 1)
        (allocs ++ [chunk_bytes])
        (evs ++ [Event.logChunk (i + 1) ((i + 1) * chunk_mb), Event.sleep])

/-- How a run of `ramp_memory_and_fail` ends: the `MemoryError` re-raised to
the caller, or the loop still running when the fuel bound is hit.  The
function has no normal-return path (`while True:` with no `break`). -/
inductive RampResult
  | raised (message : String)
  | running
deriving DecidableEq, Repr

/-- Observable outcome of a (prefix of a) run of `ramp_memory_and_fail`. -/
structure RampRun where
  allocations : List Nat
  chunks : Nat
  events : List Event
  result : RampResult
deriving DecidableEq, Repr

/-- The events emitted before the loop starts: span creation, the three
`span.set_attribute` calls (`demo.max_bytes` only when `max_bytes` is truthy),
and the "Starting memory ramp" log record. -/
def startEvents (chunk_mb sleep_seconds : Nat) (max_bytes : Option Nat) :
    List Event :=
  [Event.spanStart,
   Event.setAttribute "demo.chunk_mb" chunk_mb,
   Event.setAttribute "demo.sleep_seconds" sleep_seconds]
  ++ (match max_bytes with
      | some m => if m ≠ 0 then [Event.setAttribute "demo.max_bytes" m] else []
      | none => [])
  ++ [Event.logInfo "Starting memory ramp"]

/-- `ramp_memory_and_fail` with the in-code constant `max_mb_env`
generalized to a parameter (the source fixes `max_mb_env = 400`; see
`ramp_memory_and_fail`).  `chunk_bytes = chunk_mb * 1024 * 1024`;
`max_bytes = max_mb_env * 1024 * 1024 if max_mb_env else None`.  On
`MemoryError` the `except` handler runs `logger.exception`, then
`span.record_exception`, then `span.set_status(ERROR, str(exc))`, then
re-raises the original exception. -/
def ramp_general (chunk_mb max_mb_env sleep_seconds fuel : Nat) : RampRun :=
  let chunk_bytes := chunk_mb * 1024 * 1024
  let max_bytes : Option Nat :=
    if max_mb_env ≠ 0 then some (max_mb_env * 1024 * 1024) else none
  let out := rampLoop chunk_mb chunk_bytes max_bytes fuel 0 []
    (startEvents chunk_mb sleep_seconds max_bytes)
  match out.result with
  | LoopResult.memErr msg =>
    ⟨out.allocations, out.i,
     out.events ++ [Event.logErr "MemoryError triggered; demo complete",
                    Event.spanRecordException msg,
                    Event.spanSetStatus StatusCode.error msg],
     RampResult.raised msg⟩
  | LoopResult.fuelOut => ⟨out.allocations, out.i, out.events, RampResult.running⟩

/-- `ramp_memory_and_fail(chunk_mb, sleep_seconds)`: the source hard-codes
`max_mb_env = 400`. -/
def ramp_memory_and_fail (chunk_mb sleep_seconds fuel : Nat) : RampRun :=
  ramp_general chunk_mb 400 sleep_seconds fuel

/-- The five shutdown calls in `main`'s `finally` block: the three channel
processors (trace span processor, log record processor, metric reader) and the
two provider objects released afterwards. -/
inductive ShutdownStep
  | spanProcessor
  | logProcessor
  | metricReader
  | loggerProvider
  | meterProvider
deriving DecidableEq, Repr

/-- The order of the `finally` block:
`span_processor.shutdown(); log_processor.shutdown(); metric_reader.shutdown();
logger_provider.shutdown(); meter_provider.shutdown()`. -/
def shutdownOrder : List ShutdownStep :=
  [ShutdownStep.spanProcessor, ShutdownStep.logProcessor,
   ShutdownStep.metricReader, ShutdownStep.loggerProvider,
   ShutdownStep.meterProvider]

/-- Execute the shutdown calls in order under Python exception semantics: the
calls are plain sequential statements, so a call that raises aborts the rest
of the block.  Returns the steps attempted (in order) and the first step whose
flush raised, if any. -/
def runSteps (flushFails : ShutdownStep → Bool) :
    List ShutdownStep → List ShutdownStep × Option ShutdownStep
  | [] => ([], none)
  | s :: rest =>
    if flushFails s then ([s], some s)
    else
      let r := runSteps flushFails rest
      (s :: r.1, r.2)

/-- How control reaches `main`'s `finally` block: `ramp_memory_and_fail`
returned normally (no such path exists in the ramp, but the branch exists in
`main`), raised `MemoryError`, or an external interrupt (e.g.
`KeyboardInterrupt`) arrived during the ramp. -/
inductive RampOutcome
  | completed
  | memoryError (message : String)
  | interrupted
deriving DecidableEq, Repr

/-- Process exit: a status code (0 for falling off the end of `main`, 1 for
`sys.exit(1)`), or an uncaught exception propagating out (abnormal exit). -/
inductive ExitStatus
  | code (n : Nat)
  | uncaught
deriving DecidableEq, Repr

/-- What a completed `main` invocation did: its exit status and the shutdown
steps its `finally` block attempted, in order. -/
structure MainResult where
  exit : ExitStatus
  shutdown : List ShutdownStep
deriving DecidableEq, Repr

/-- `main`'s `try/except MemoryError/finally`: `except MemoryError` calls
`sys.exit(1)`; the `finally` block always runs, exactly once, on every exit
path; an exception raised inside the `finally` block replaces any pending
exit or exception (Python semantics). -/
def mainRun (outcome : RampOutcome) (flushFails : ShutdownStep → Bool) :
    MainResult :=
  let r := runSteps flushFails shutdownOrder
  let exit :=
    match r.2, outcome with
    | some _, _ => ExitStatus.uncaught
    | none, RampOutcome.completed => ExitStatus.code 0
    | none, RampOutcome.memoryError _ => ExitStatus.code 1
    | none, RampOutcome.interrupted => ExitStatus.uncaught
  ⟨exit, r.1⟩

/-- Flush behavior with every channel healthy: no shutdown call raises. -/
def noFails : ShutdownStep → Bool := fun _ => false

/-- `main` composed with the ramp itself (environment defaults aside):
`none` when the ramp is still running after `fuel` iterations (so `main` has
not returned), otherwise the completed `MainResult`. -/
def mainConcrete (chunk_mb sleep_seconds fuel : Nat) : Option MainResult :=
  match (ramp_memory_and_fail chunk_mb sleep_seconds fuel).result with
  | RampResult.raised msg => some (mainRun (RampOutcome.memoryError msg) noFails)
  | RampResult.running => none

/-- The exporter sink, modelled at the interface the spec gives it: telemetry
submissions are non-blocking appends into channel buffers; whether the sink is
reachable decides only which submitted records are delivered downstream, and
nothing in the ramp loop reads it. -/
def deliver (sinkOk : Bool) (evs : List Event) : List Event :=
  if sinkOk then evs else []

/-- A ramp run paired with the records its sink actually delivered. -/
def runWithSink (chunk_mb sleep_seconds fuel : Nat) (sinkOk : Bool) :
    RampRun × List Event :=
  let r := ramp_memory_and_fail chunk_mb sleep_seconds fuel
  (r, deliver sinkOk r.events)

/-! ### Arithmetic helpers: ceiling division `(m + c - 1) / c` -/

lemma ceil_mul_ge (m c : Nat) (hc : 0 < c) (hm : 0 < m) :
    m ≤ ((m + c - 1) / c) * c := by
  have h : m + c - 1 = (m - 1) + c := by omega
  rw [h, Nat.add_div_right _ hc, Nat.succ_mul, Nat.mul_comm]
  have h1 := Nat.div_add_mod (m - 1) c
  have h2 := Nat.mod_lt (m - 1) hc
  omega

lemma lt_ceil_mul_lt (m c i : Nat) (hc : 0 < c) (hm : 0 < m)
    (hi : i < (m + c - 1) / c) : i * c < m := by
  have h : m + c - 1 = (m - 1) + c := by omega
  rw [h, Nat.add_div_right _ hc] at hi
  have h1 : i ≤ (m - 1) / c := by omega
  have h2 : i * c ≤ (m - 1) / c * c := Nat.mul_le_mul_right c h1
  have h3 : (m - 1) / c * c ≤ m - 1 := Nat.div_mul_le_self _ _
  omega

lemma ceil_eq_of_bounds (a b n : Nat) (hb : 0 < b) (ha : 0 < a)
    (h1 : a ≤ n * b) (h2 : (n - 1) * b < a) : (a + b - 1) / b = n := by
  have hN1 : a ≤ ((a + b - 1) / b) * b := ceil_mul_ge a b hb ha
  have hNpos : 0 < (a + b - 1) / b := by
    rcases Nat.eq_zero_or_pos ((a + b - 1) / b) with h | h
    · exfalso; rw [h] at hN1; omega
    · exact h
  have hN2 : ((a + b - 1) / b - 1) * b < a :=
    lt_ceil_mul_lt a b _ hb ha (by omega)
  have hn : n ≤ (a + b - 1) / b := by
    by_contra hcon
    push_neg at hcon
    have h3 : n - 1 ≥ (a + b - 1) / b := by omega
    have h4 := Nat.mul_le_mul_right b h3
    omega
  have hn2 : (a + b - 1) / b ≤ n := by
    by_contra hcon
    push_neg at hcon
    have h3 : (a + b - 1) / b - 1 ≥ n := by omega
    have h4 := Nat.mul_le_mul_right b h3
    omega
  omega

/-- Ceiling division is invariant under scaling numerator and denominator:
`ceil (a*k / (b*k)) = ceil (a / b)`. -/
lemma ceil_scale (a b k : Nat) (hb : 0 < b) (ha : 0 < a) (hk : 0 < k) :
    (a * k + b * k - 1) / (b * k) = (a + b - 1) / b := by
  have hbk : 0 < b * k := Nat.mul_pos hb hk
  have hak : 0 < a * k := Nat.mul_pos ha hk
  have h1 : a ≤ ((a + b - 1) / b) * b := ceil_mul_ge a b hb ha
  have hNpos : 0 < (a + b - 1) / b := by
    rcases Nat.eq_zero_or_pos ((a + b - 1) / b) with h | h
    · exfalso; rw [h] at h1; omega
    · exact h
  have h2 : ((a + b - 1) / b - 1) * b < a :=
    lt_ceil_mul_lt a b _ hb ha (by omega)
  refine ceil_eq_of_bounds (a * k) (b * k) ((a + b - 1) / b) hbk hak ?_ ?_
  · calc a * k ≤ (((a + b - 1) / b) * b) * k := Nat.mul_le_mul_right k h1
      _ = ((a + b - 1) / b) * (b * k) := by ring
  · calc ((a + b - 1) / b - 1) * (b * k) = (((a + b - 1) / b - 1) * b) * k := by
          ring
      _ < a * k := Nat.mul_lt_mul_of_lt_of_le h2 (Nat.le_refl k) hk

/-! ### Step lemmas for the loop -/

lemma capTriggered_some (m b : Nat) :
    capTriggered (some m) b = true ↔ m ≠ 0 ∧ m ≤ b := by
  simp [capTriggered]

lemma capTriggered_some_false (m b : Nat) (h : b < m) :
    capTriggered (some m) b = false := by
  simp [capTriggered]
  omega

lemma rampLoop_zero (cmb c : Nat) (mb : Option Nat) (i : Nat)
    (allocs : List Nat) (evs : List Event) :
    rampLoop cmb c mb 0 i allocs evs = ⟨allocs, i, evs, LoopResult.fuelOut⟩ :=
  rfl

lemma rampLoop_succ_trig (cmb c : Nat) (mb : Option Nat) (fuel i : Nat)
    (allocs : List Nat) (evs : List Event)
    (h : capTriggered mb ((i + 1) * c) = true) :
    rampLoop cmb c mb (fuel + 1) i allocs evs =
      ⟨allocs ++ [c], i + 1,
       evs ++ [Event.logChunk (i + 1) ((i + 1) * cmb)],
       LoopResult.memErr (capMessage mb)⟩ := by
  simp [rampLoop, h]

lemma rampLoop_succ_cont (cmb c : Nat) (mb : Option Nat) (fuel i : Nat)
    (allocs : List Nat) (evs : List Event)
    (h : capTriggered mb ((i + 1) * c) = false) :
    rampLoop cmb c mb (fuel + 1) i allocs evs =
      rampLoop cmb c mb fuel (i + 1) (allocs ++ [c])
        (evs ++ [Event.logChunk (i + 1) ((i + 1) * cmb), Event.sleep]) := by
  simp [rampLoop, h]

/-! ### Loop invariants, by induction on the fuel -/

/-- The counter `i` never decreases across loop iterations. -/
lemma rampLoop_i_mono (cmb c : Nat) (mb : Option Nat) :
    ∀ (fuel i : Nat) (allocs : List Nat) (evs : List Event),
      i ≤ (rampLoop cmb c mb fuel i allocs evs).i := by
  intro fuel
  induction fuel with
  | zero => intro i allocs evs; rw [rampLoop_zero]
  | succ n ih =>
    intro i allocs evs
    cases h : capTriggered mb ((i + 1) * c) with
    | true =>
      rw [rampLoop_succ_trig cmb c mb n i allocs evs h]
      exact Nat.le_succ i
    | false =>
      rw [rampLoop_succ_cont cmb c mb n i allocs evs h]
      exact Nat.le_trans (Nat.le_succ i) (ih (i + 1) _ _)

/-- The loop appends exactly one `chunk_bytes`-sized block per iteration. -/
lemma rampLoop_allocs (cmb c : Nat) (mb : Option Nat) :
    ∀ (fuel i : Nat) (allocs : List Nat) (evs : List Event),
      (rampLoop cmb c mb fuel i allocs evs).allocations
        = allocs ++
          List.replicate ((rampLoop cmb c mb fuel i allocs evs).i - i) c := by
  intro fuel
  induction fuel with
  | zero => intro i allocs evs; rw [rampLoop_zero]; simp
  | succ n ih =>
    intro i allocs evs
    cases h : capTriggered mb ((i + 1) * c) with
    | true => rw [rampLoop_succ_trig cmb c mb n i allocs evs h]; simp
    | false =>
      rw [rampLoop_succ_cont cmb c mb n i allocs evs h]
      rw [ih (i + 1) _ _]
      have hm := rampLoop_i_mono cmb c mb n (i + 1) (allocs ++ [c])
        (evs ++ [Event.logChunk (i + 1) ((i + 1) * cmb), Event.sleep])
      have he : (rampLoop cmb c mb n (i + 1) (allocs ++ [c])
            (evs ++ [Event.logChunk (i + 1) ((i + 1) * cmb), Event.sleep])).i - i
          = ((rampLoop cmb c mb n (i + 1) (allocs ++ [c])
            (evs ++ [Event.logChunk (i + 1) ((i + 1) * cmb), Event.sleep])).i
              - (i + 1)) + 1 := by omega
      rw [he, List.replicate_succ, List.append_assoc, List.singleton_append]

/-- Counting events the loop emits once per iteration (e.g. per-chunk log
records): any predicate true on chunk logs and false on sleeps grows by
exactly the number of iterations executed. -/
lemma rampLoop_countP (p : Event → Bool) (cmb c : Nat) (mb : Option Nat)
    (hchunk : ∀ a b, p (Event.logChunk a b) = true)
    (hsleep : p Event.sleep = false) :
    ∀ (fuel i : Nat) (allocs : List Nat) (evs : List Event),
      ((rampLoop cmb c mb fuel i allocs evs).events).countP p
        = evs.countP p + ((rampLoop cmb c mb fuel i allocs evs).i - i) := by
  intro fuel
  induction fuel with
  | zero => intro i allocs evs; rw [rampLoop_zero]; simp
  | succ n ih =>
    intro i allocs evs
    cases h : capTriggered mb ((i + 1) * c) with
    | true =>
      rw [rampLoop_succ_trig cmb c mb n i allocs evs h]
      simp [List.countP_append, List.countP_cons, hchunk]
    | false =>
      rw [rampLoop_succ_cont cmb c mb n i allocs evs h]
      rw [ih (i + 1) _ _]
      have hm := rampLoop_i_mono cmb c mb n (i + 1) (allocs ++ [c])
        (evs ++ [Event.logChunk (i + 1) ((i + 1) * cmb), Event.sleep])
      simp [List.countP_append, List.countP_cons, hchunk, hsleep]
      omega

/-- Events the loop never emits (span status writes, error logs, exception
records): any predicate false on chunk logs and sleeps filters to the same
list after the loop as before it. -/
lemma rampLoop_filter_none (p : Event → Bool) (cmb c : Nat) (mb : Option Nat)
    (hchunk : ∀ a b, p (Event.logChunk a b) = false)
    (hsleep : p Event.sleep = false) :
    ∀ (fuel i : Nat) (allocs : List Nat) (evs : List Event),
      ((rampLoop cmb c mb fuel i allocs evs).events).filter p
        = evs.filter p := by
  intro fuel
  induction fuel with
  | zero => intro i allocs evs; rw [rampLoop_zero]
  | succ n ih =>
    intro i allocs evs
    cases h : capTriggered mb ((i + 1) * c) with
    | true =>
      rw [rampLoop_succ_trig cmb c mb n i allocs evs h]
      simp [List.filter_append, hchunk]
    | false =>
      rw [rampLoop_succ_cont cmb c mb n i allocs evs h]
      rw [ih (i + 1) _ _]
      simp [List.filter_append, hchunk, hsleep]

/-- In a run that raises `MemoryError`, the failing iteration slept not: the
sleeps number one fewer than the iterations executed (the cap test runs
before the sleep). -/
lemma rampLoop_sleep_memErr (cmb c : Nat) (mb : Option Nat) :
    ∀ (fuel i : Nat) (allocs : List Nat) (evs : List Event) (s : String),
      (rampLoop cmb c mb fuel i allocs evs).result = LoopResult.memErr s →
      ((rampLoop cmb c mb fuel i allocs evs).events).countP isSleep + 1
        = evs.countP isSleep + ((rampLoop cmb c mb fuel i allocs evs).i - i) := by
  intro fuel
  induction fuel with
  | zero => intro i allocs evs s hres; rw [rampLoop_zero] at hres ⊢; cases hres
  | succ n ih =>
    intro i allocs evs s hres
    cases h : capTriggered mb ((i + 1) * c) with
    | true =>
      rw [rampLoop_succ_trig cmb c mb n i allocs evs h]
      simp [List.countP_append, List.countP_cons, isSleep]
    | false =>
      rw [rampLoop_succ_cont cmb c mb n i allocs evs h] at hres ⊢
      rw [ih (i + 1) _ _ s hres]
      have hm := rampLoop_i_mono cmb c mb n (i + 1) (allocs ++ [c])
        (evs ++ [Event.logChunk (i + 1) ((i + 1) * cmb), Event.sleep])
      simp [List.countP_append, List.countP_cons, isSleep]
      omega

/-- In a run that exhausts its fuel, every executed iteration slept. -/
lemma rampLoop_sleep_fuelOut (cmb c : Nat) (mb : Option Nat) :
    ∀ (fuel i : Nat) (allocs : List Nat) (evs : List Event),
      (rampLoop cmb c mb fuel i allocs evs).result = LoopResult.fuelOut →
      ((rampLoop cmb c mb fuel i allocs evs).events).countP isSleep
        = evs.countP isSleep + ((rampLoop cmb c mb fuel i allocs evs).i - i) := by
  intro fuel
  induction fuel with
  | zero => intro i allocs evs _; rw [rampLoop_zero]; simp
  | succ n ih =>
    intro i allocs evs hres
    cases h : capTriggered mb ((i + 1) * c) with
    | true => rw [rampLoop_succ_trig cmb c mb n i allocs evs h] at hres; cases hres
    | false =>
      rw [rampLoop_succ_cont cmb c mb n i allocs evs h] at hres ⊢
      rw [ih (i + 1) _ _ hres]
      have hm := rampLoop_i_mono cmb c mb n (i + 1) (allocs ++ [c])
        (evs ++ [Event.logChunk (i + 1) ((i + 1) * cmb), Event.sleep])
      simp [List.countP_append, List.countP_cons, isSleep]
      omega

/-- In a run that raises, the last event before the exception handler is the
per-chunk log of the final chunk: the failure fires strictly after the
allocation (and its log record) and before any sleep. -/
lemma rampLoop_last_memErr (cmb c : Nat) (mb : Option Nat) :
    ∀ (fuel i : Nat) (allocs : List Nat) (evs : List Event) (s : String),
      (rampLoop cmb c mb fuel i allocs evs).result = LoopResult.memErr s →
      ((rampLoop cmb c mb fuel i allocs evs).events).getLast?
        = some (Event.logChunk (rampLoop cmb c mb fuel i allocs evs).i
            ((rampLoop cmb c mb fuel i allocs evs).i * cmb)) := by
  intro fuel
  induction fuel with
  | zero => intro i allocs evs s hres; rw [rampLoop_zero] at hres; cases hres
  | succ n ih =>
    intro i allocs evs s hres
    cases h : capTriggered mb ((i + 1) * c) with
    | true =>
      rw [rampLoop_succ_trig cmb c mb n i allocs evs h]
      simp
    | false =>
      rw [rampLoop_succ_cont cmb c mb n i allocs evs h] at hres ⊢
      exact ih (i + 1) _ _ s hres

/-- While the loop is still running under a positive cap, the cap has not been
reached: `bytes_allocated < cap_bytes` at every point before the failure. -/
lemma rampLoop_running_lt (cmb c m : Nat) (hm : 0 < m) :
    ∀ (fuel i : Nat) (allocs : List Nat) (evs : List Event),
      i * c < m →
      (rampLoop cmb c (some m) fuel i allocs evs).result = LoopResult.fuelOut →
      (rampLoop cmb c (some m) fuel i allocs evs).i * c < m := by
  intro fuel
  induction fuel with
  | zero => intro i allocs evs hlt _; rw [rampLoop_zero]; exact hlt
  | succ n ih =>
    intro i allocs evs hlt hres
    cases h : capTriggered (some m) ((i + 1) * c) with
    | true =>
      rw [rampLoop_succ_trig cmb c (some m) n i allocs evs h] at hres
      cases hres
    | false =>
      rw [rampLoop_succ_cont cmb c (some m) n i allocs evs h] at hres ⊢
      have hlt' : (i + 1) * c < m := by
        rcases (capTriggered_some m ((i + 1) * c)).not.1 (by simp [h]) with hor
        push_neg at hor
        exact Nat.lt_of_not_le fun hle => by
          have := hor (by omega)
          omega
      exact ih (i + 1) _ _ hlt' hres

/-- When the loop raises under a positive cap, it does so at the first chunk
reaching the cap: `cap_bytes ≤ bytes_allocated` and the previous chunk was
still below the cap. -/
lemma rampLoop_memErr_bounds (cmb c m : Nat) (hm : 0 < m) :
    ∀ (fuel i : Nat) (allocs : List Nat) (evs : List Event) (s : String),
      i * c < m →
      (rampLoop cmb c (some m) fuel i allocs evs).result = LoopResult.memErr s →
      m ≤ (rampLoop cmb c (some m) fuel i allocs evs).i * c ∧
      ((rampLoop cmb c (some m) fuel i allocs evs).i - 1) * c < m ∧
      i < (rampLoop cmb c (some m) fuel i allocs evs).i := by
  intro fuel
  induction fuel with
  | zero => intro i allocs evs s _ hres; rw [rampLoop_zero] at hres; cases hres
  | succ n ih =>
    intro i allocs evs s hlt hres
    cases h : capTriggered (some m) ((i + 1) * c) with
    | true =>
      rw [rampLoop_succ_trig cmb c (some m) n i allocs evs h] at hres ⊢
      dsimp only
      have htr := (capTriggered_some m ((i + 1) * c)).1 h
      refine ⟨htr.2, ?_, by omega⟩
      simpa using hlt
    | false =>
      rw [rampLoop_succ_cont cmb c (some m) n i allocs evs h] at hres ⊢
      have hlt' : (i + 1) * c < m := by
        rcases (capTriggered_some m ((i + 1) * c)).not.1 (by simp [h]) with hor
        push_neg at hor
        exact Nat.lt_of_not_le fun hle => by
          have := hor (by omega)
          omega
      have hres' := ih (i + 1) _ _ s hlt' hres
      exact ⟨hres'.1, hres'.2.1, by omega⟩

/-- Given at least `ceil((cap - bytes so far) / chunk)` fuel, the loop under a
positive cap raises `MemoryError` carrying the cap message, at exactly the
iteration counter `ceil(cap / chunk)`. -/
lemma rampLoop_cap (cmb c m : Nat) (hc : 0 < c) (hm : 0 < m) :
    ∀ (fuel i : Nat) (allocs : List Nat) (evs : List Event),
      i < (m + c - 1) / c →
      (m + c - 1) / c - i ≤ fuel →
      (rampLoop cmb c (some m) fuel i allocs evs).result
          = LoopResult.memErr (capMessage (some m)) ∧
      (rampLoop cmb c (some m) fuel i allocs evs).i = (m + c - 1) / c := by
  intro fuel
  induction fuel with
  | zero => intro i allocs evs hi hfuel; omega
  | succ n ih =>
    intro i allocs evs hi hfuel
    by_cases h : m ≤ (i + 1) * c
    · have htrig : capTriggered (some m) ((i + 1) * c) = true :=
        (capTriggered_some m ((i + 1) * c)).2 ⟨by omega, h⟩
      rw [rampLoop_succ_trig cmb c (some m) n i allocs evs htrig]
      dsimp only
      refine ⟨rfl, ?_⟩
      have hle : i + 1 ≤ (m + c - 1) / c := hi
      have hge : (m + c - 1) / c ≤ i + 1 := by
        by_contra hcon
        push_neg at hcon
        have := lt_ceil_mul_lt m c (i + 1) hc hm hcon
        omega
      omega
    · have htrig : capTriggered (some m) ((i + 1) * c) = false := by
        cases hb : capTriggered (some m) ((i + 1) * c) with
        | false => rfl
        | true => exact absurd ((capTriggered_some m _).1 hb).2 h
      rw [rampLoop_succ_cont cmb c (some m) n i allocs evs htrig]
      have hi' : i + 1 < (m + c - 1) / c := by
        rcases Nat.lt_or_ge (i + 1) ((m + c - 1) / c) with hlt | hge
        · exact hlt
        · exfalso
          have := ceil_mul_ge m c hc hm
          have h2 : ((m + c - 1) / c) * c ≤ (i + 1) * c :=
            Nat.mul_le_mul_right c hge
          omega
      exact ih (i + 1) _ _ hi' (by omega)

/-- With a cap the loop can never trigger (no cap, or a zero chunk size under
a positive cap), the loop consumes all its fuel, one chunk per unit. -/
lemma rampLoop_no_trigger (cmb c : Nat) (mb : Option Nat)
    (htrig : ∀ j, capTriggered mb ((j + 1) * c) = false) :
    ∀ (fuel i : Nat) (allocs : List Nat) (evs : List Event),
      (rampLoop cmb c mb fuel i allocs evs).result = LoopResult.fuelOut ∧
      (rampLoop cmb c mb fuel i allocs evs).i = i + fuel := by
  intro fuel
  induction fuel with
  | zero => intro i allocs evs; rw [rampLoop_zero]; exact ⟨rfl, rfl⟩
  | succ n ih =>
    intro i allocs evs
    rw [rampLoop_succ_cont cmb c mb n i allocs evs (htrig i)]
    have := ih (i + 1) (allocs ++ [c])
      (evs ++ [Event.logChunk (i + 1) ((i + 1) * cmb), Event.sleep])
    exact ⟨this.1, by omega⟩

/-- The loop only ever appends to the event trace it is given. -/
lemma rampLoop_events_prefix (cmb c : Nat) (mb : Option Nat) :
    ∀ (fuel i : Nat) (allocs : List Nat) (evs : List Event),
      ∃ tail, (rampLoop cmb c mb fuel i allocs evs).events = evs ++ tail := by
  intro fuel
  induction fuel with
  | zero => intro i allocs evs; rw [rampLoop_zero]; exact ⟨[], by simp⟩
  | succ n ih =>
    intro i allocs evs
    cases h : capTriggered mb ((i + 1) * c) with
    | true =>
      rw [rampLoop_succ_trig cmb c mb n i allocs evs h]
      exact ⟨[Event.logChunk (i + 1) ((i + 1) * cmb)], rfl⟩
    | false =>
      rw [rampLoop_succ_cont cmb c mb n i allocs evs h]
      rcases ih (i + 1) (allocs ++ [c])
        (evs ++ [Event.logChunk (i + 1) ((i + 1) * cmb), Event.sleep]) with
        ⟨tail, htail⟩
      exact ⟨[Event.logChunk (i + 1) ((i + 1) * cmb), Event.sleep] ++ tail,
        by rw [htail, List.append_assoc]⟩

/-- Running the loop one extra step never decreases the chunk counter. -/
lemma rampLoop_fuel_step (cmb c : Nat) (mb : Option Nat) :
    ∀ (fuel i : Nat) (allocs : List Nat) (evs : List Event),
      (rampLoop cmb c mb fuel i allocs evs).i
        ≤ (rampLoop cmb c mb (fuel + 1) i allocs evs).i := by
  intro fuel
  induction fuel with
  | zero =>
    intro i allocs evs
    rw [rampLoop_zero]
    exact rampLoop_i_mono cmb c mb 1 i allocs evs
  | succ n ih =>
    intro i allocs evs
    cases h : capTriggered mb ((i + 1) * c) with
    | true =>
      rw [rampLoop_succ_trig cmb c mb n i allocs evs h,
          rampLoop_succ_trig cmb c mb (n + 1) i allocs evs h]
    | false =>
      rw [rampLoop_succ_cont cmb c mb n i allocs evs h,
          rampLoop_succ_cont cmb c mb (n + 1) i allocs evs h]
      exact ih (i + 1) _ _

/-- Chunk counts are monotone in the fuel bound: across loop iterations the
number of allocated chunks never decreases. -/
lemma rampLoop_fuel_mono (cmb c : Nat) (mb : Option Nat)
    (f1 f2 : Nat) (h : f1 ≤ f2) (i : Nat) (allocs : List Nat)
    (evs : List Event) :
    (rampLoop cmb c mb f1 i allocs evs).i
      ≤ (rampLoop cmb c mb f2 i allocs evs).i := by
  induction f2 with
  | zero =>
    have : f1 = 0 := by omega
    rw [this]
  | succ n ih =>
    rcases Nat.lt_or_ge f1 (n + 1) with hlt | hge
    · exact Nat.le_trans (ih (by omega)) (rampLoop_fuel_step cmb c mb n i allocs evs)
    · have : f1 = n + 1 := by omega
      rw [this]

/-! ### Shutdown sequence and pre-loop event helpers -/

/-- With healthy channels the `finally` block attempts every step. -/
lemma runSteps_noFails (l : List ShutdownStep) : runSteps noFails l = (l, none) := by
  induction l with
  | nil => rfl
  | cons s rest ih => simp [runSteps, noFails, ih]

/-- Python sequential statements are fail-fast: a step whose flush raises is
the last step attempted. -/
lemma runSteps_failfast (f : ShutdownStep → Bool) (c : ShutdownStep)
    (hf : f c = true) :
    ∀ l : List ShutdownStep, c ∈ (runSteps f l).1 →
      ((runSteps f l).1).getLast? = some c := by
  intro l
  induction l with
  | nil => intro hmem; simp [runSteps] at hmem
  | cons s rest ih =>
    intro hmem
    by_cases hs : f s = true
    · simp only [runSteps, if_pos hs] at hmem ⊢
      simp at hmem
      rw [hmem]
      rfl
    · simp only [runSteps, if_neg hs] at hmem ⊢
      rcases List.mem_cons.1 hmem with he | hin
      · exact absurd (he ▸ hf) hs
      · have htail := ih hin
        have hne : (runSteps f rest).1 ≠ [] := by
          intro hnil
          rw [hnil] at hin
          simp at hin
        cases hr : (runSteps f rest).1 with
        | nil => exact absurd hr hne
        | cons x xs =>
          rw [hr] at htail
          rw [List.getLast?_cons_cons]
          exact htail

/-- The pre-loop events with a truthy cap, written out. -/
lemma startEvents_some (cmb s m : Nat) (hm : m ≠ 0) :
    startEvents cmb s (some m) =
      [Event.spanStart, Event.setAttribute "demo.chunk_mb" cmb,
       Event.setAttribute "demo.sleep_seconds" s,
       Event.setAttribute "demo.max_bytes" m,
       Event.logInfo "Starting memory ramp"] := by
  simp [startEvents, hm]

lemma startEvents_countP_sleep (cmb s : Nat) (mb : Option Nat) :
    (startEvents cmb s mb).countP isSleep = 0 := by
  cases mb with
  | none => simp [startEvents, isSleep]
  | some m =>
    by_cases hm : m = 0 <;> simp [startEvents, hm, isSleep]

lemma startEvents_countP_chunk (cmb s : Nat) (mb : Option Nat) :
    (startEvents cmb s mb).countP isChunkLog = 0 := by
  cases mb with
  | none => simp [startEvents, isChunkLog]
  | some m =>
    by_cases hm : m = 0 <;> simp [startEvents, hm, isChunkLog]

lemma startEvents_countP_log (cmb s : Nat) (mb : Option Nat) :
    (startEvents cmb s mb).countP isLogRecord = 1 := by
  cases mb with
  | none => simp [startEvents, isLogRecord]
  | some m =>
    by_cases hm : m = 0 <;> simp [startEvents, hm, isLogRecord]

lemma startEvents_filter_status (cmb s : Nat) (mb : Option Nat) :
    (startEvents cmb s mb).filter isStatus = [] := by
  cases mb with
  | none => simp [startEvents, isStatus]
  | some m =>
    by_cases hm : m = 0 <;> simp [startEvents, hm, isStatus]

lemma ceil_pos (m c : Nat) (hc : 0 < c) (hm : 0 < m) : 0 < (m + c - 1) / c := by
  have h : m + c - 1 = (m - 1) + c := by omega
  rw [h, Nat.add_div_right _ hc]
  exact Nat.succ_pos _

/-! ### Claims -/

/-- C1: for every configured cap `m` and every chunk size `c > 0`, the ramp
loop allocates exactly `ceil(m / c)` chunks before raising its terminal
cap-reached `MemoryError`; the cap test is evaluated once per iteration,
strictly after the allocation (the loop trace ends with the final chunk's log
record) and before the sleep (the failing iteration adds no sleep, so the
sleeps number one fewer than the chunks), uses `≥` (the raise fires as soon as
`bytes_allocated` reaches the cap), and `bytes_allocated` at failure time lies
in `[m, m + c)`. -/
theorem claim_C1_cap_exact_ceil (cmb c m s fuel : Nat) (hc : 0 < c)
    (hm : 0 < m) (hfuel : (m + c - 1) / c ≤ fuel) :
    (rampLoop cmb c (some m) fuel 0 [] (startEvents cmb s (some m))).result
        = LoopResult.memErr (capMessage (some m)) ∧
    (rampLoop cmb c (some m) fuel 0 [] (startEvents cmb s (some m))).i
        = (m + c - 1) / c ∧
    ((rampLoop cmb c (some m) fuel 0 []
        (startEvents cmb s (some m))).allocations).length = (m + c - 1) / c ∧
    m ≤ (rampLoop cmb c (some m) fuel 0 [] (startEvents cmb s (some m))).i * c ∧
    (rampLoop cmb c (some m) fuel 0 [] (startEvents cmb s (some m))).i * c
        < m + c ∧
    ((rampLoop cmb c (some m) fuel 0 []
        (startEvents cmb s (some m))).events).countP isSleep + 1
      = (rampLoop cmb c (some m) fuel 0 [] (startEvents cmb s (some m))).i ∧
    ((rampLoop cmb c (some m) fuel 0 []
        (startEvents cmb s (some m))).events).getLast?
      = some (Event.logChunk
          (rampLoop cmb c (some m) fuel 0 [] (startEvents cmb s (some m))).i
          ((rampLoop cmb c (some m) fuel 0 [] (startEvents cmb s (some m))).i
            * cmb)) := by
  have hN : 0 < (m + c - 1) / c := ceil_pos m c hc hm
  have hcap := rampLoop_cap cmb c m hc hm fuel 0
    [] (startEvents cmb s (some m)) hN (by omega)
  have hbounds := rampLoop_memErr_bounds cmb c m hm fuel 0
    [] (startEvents cmb s (some m)) (capMessage (some m)) (by simpa using hm)
    hcap.1
  refine ⟨hcap.1, hcap.2, ?_, ?_, ?_, ?_, ?_⟩
  · rw [rampLoop_allocs, hcap.2]
    simp
  · exact hbounds.1
  · have h1 := hbounds.2.1
    have h2 := hbounds.2.2
    set k := (rampLoop cmb c (some m) fuel 0 [] (startEvents cmb s (some m))).i
      with hk
    have he : k = (k - 1) + 1 := by omega
    rw [he, Nat.succ_mul]
    omega
  · have hs := rampLoop_sleep_memErr cmb c (some m) fuel 0
      [] (startEvents cmb s (some m)) (capMessage (some m)) hcap.1
    rw [startEvents_countP_sleep] at hs
    omega
  · exact rampLoop_last_memErr cmb c (some m) fuel 0
      [] (startEvents cmb s (some m)) (capMessage (some m)) hcap.1

/-- Witness for C1 at the spec's own scenario (`chunk = 10`, `cap = 35`, so
4 chunks and 40 bytes-per-unit at failure) — hypotheses discharged at
`c = 10`, `m = 35`, `fuel = 4`. -/
theorem claim_C1_cap_exact_ceil_witness :
    (rampLoop 10 10 (some 35) 4 0 [] (startEvents 10 0 (some 35))).result
        = LoopResult.memErr (capMessage (some 35)) ∧
    (rampLoop 10 10 (some 35) 4 0 [] (startEvents 10 0 (some 35))).i
        = (35 + 10 - 1) / 10 ∧
    ((rampLoop 10 10 (some 35) 4 0 []
        (startEvents 10 0 (some 35))).allocations).length = (35 + 10 - 1) / 10 ∧
    35 ≤ (rampLoop 10 10 (some 35) 4 0 [] (startEvents 10 0 (some 35))).i * 10 ∧
    (rampLoop 10 10 (some 35) 4 0 [] (startEvents 10 0 (some 35))).i * 10
        < 35 + 10 ∧
    ((rampLoop 10 10 (some 35) 4 0 []
        (startEvents 10 0 (some 35))).events).countP isSleep + 1
      = (rampLoop 10 10 (some 35) 4 0 [] (startEvents 10 0 (some 35))).i ∧
    ((rampLoop 10 10 (some 35) 4 0 []
        (startEvents 10 0 (some 35))).events).getLast?
      = some (Event.logChunk
          (rampLoop 10 10 (some 35) 4 0 [] (startEvents 10 0 (some 35))).i
          ((rampLoop 10 10 (some 35) 4 0 [] (startEvents 10 0 (some 35))).i
            * 10)) :=
  claim_C1_cap_exact_ceil 10 10 35 0 4 (by decide) (by decide) (by decide)

/-- Unfolding `ramp_memory_and_fail` at the source's fixed
`max_mb_env = 400`. -/
lemma ramp_memory_and_fail_def (cmb s fuel : Nat) :
    ramp_memory_and_fail cmb s fuel =
      (match (rampLoop cmb (cmb * 1024 * 1024) (some (400 * 1024 * 1024))
          fuel 0 [] (startEvents cmb s (some (400 * 1024 * 1024)))).result with
      | LoopResult.memErr msg =>
        ⟨(rampLoop cmb (cmb * 1024 * 1024) (some (400 * 1024 * 1024))
            fuel 0 [] (startEvents cmb s (some (400 * 1024 * 1024)))).allocations,
         (rampLoop cmb (cmb * 1024 * 1024) (some (400 * 1024 * 1024))
            fuel 0 [] (startEvents cmb s (some (400 * 1024 * 1024)))).i,
         (rampLoop cmb (cmb * 1024 * 1024) (some (400 * 1024 * 1024))
            fuel 0 [] (startEvents cmb s (some (400 * 1024 * 1024)))).events
           ++ [Event.logErr "MemoryError triggered; demo complete",
               Event.spanRecordException msg,
               Event.spanSetStatus StatusCode.error msg],
         RampResult.raised msg⟩
      | LoopResult.fuelOut =>
        ⟨(rampLoop cmb (cmb * 1024 * 1024) (some (400 * 1024 * 1024))
            fuel 0 [] (startEvents cmb s (some (400 * 1024 * 1024)))).allocations,
         (rampLoop cmb (cmb * 1024 * 1024) (some (400 * 1024 * 1024))
            fuel 0 [] (startEvents cmb s (some (400 * 1024 * 1024)))).i,
         (rampLoop cmb (cmb * 1024 * 1024) (some (400 * 1024 * 1024))
            fuel 0 [] (startEvents cmb s (some (400 * 1024 * 1024)))).events,
         RampResult.running⟩) := by
  rfl

/-- C3: the `RampState` invariant, for every configured cap `m > 0`, chunk
size `c`, and any point in the run: the retained allocation list carries
exactly one `c`-sized block per counted chunk, so `bytes_allocated` (its sum)
equals `chunks_allocated × bytes_per_chunk`; the chunk count is monotonically
non-decreasing across iterations; and once `bytes_allocated ≥ cap_bytes` the
machine has raised (FAILED) with no further allocation: while still running
the cap is strictly unreached, and at failure the counter stopped at the very
first chunk reaching the cap. -/
theorem claim_C3_ramp_state_invariant (cmb c m fuel : Nat)
    (evs : List Event) (hm : 0 < m) :
    ((rampLoop cmb c (some m) fuel 0 [] evs).allocations).sum
        = (rampLoop cmb c (some m) fuel 0 [] evs).i * c ∧
    ((rampLoop cmb c (some m) fuel 0 [] evs).allocations).length
        = (rampLoop cmb c (some m) fuel 0 [] evs).i ∧
    (∀ f1 f2, f1 ≤ f2 →
      (rampLoop cmb c (some m) f1 0 [] evs).i
        ≤ (rampLoop cmb c (some m) f2 0 [] evs).i) ∧
    ((rampLoop cmb c (some m) fuel 0 [] evs).result = LoopResult.fuelOut →
      (rampLoop cmb c (some m) fuel 0 [] evs).i * c < m) ∧
    (∀ s, (rampLoop cmb c (some m) fuel 0 [] evs).result
        = LoopResult.memErr s →
      m ≤ (rampLoop cmb c (some m) fuel 0 [] evs).i * c ∧
      ((rampLoop cmb c (some m) fuel 0 [] evs).i - 1) * c < m) := by
  have ha := rampLoop_allocs cmb c (some m) fuel 0 [] evs
  refine ⟨?_, ?_, ?_, ?_, ?_⟩
  · rw [ha]
    simp [List.sum_replicate, smul_eq_mul]
  · rw [ha]
    simp
  · intro f1 f2 h
    exact rampLoop_fuel_mono cmb c (some m) f1 f2 h 0 [] evs
  · intro hres
    exact rampLoop_running_lt cmb c m hm fuel 0 [] evs (by simpa using hm) hres
  · intro s hres
    have hb := rampLoop_memErr_bounds cmb c m hm fuel 0 [] evs s
      (by simpa using hm) hres
    exact ⟨hb.1, hb.2.1⟩

/-- Witness for C3 at `chunk = 10`, `cap = 35`, `fuel = 4` (the invariant
components that carry no implication, evaluated at the failure point). -/
theorem claim_C3_ramp_state_invariant_witness :
    0 < 35 ∧
    ((rampLoop 1 10 (some 35) 4 0 [] []).allocations).sum
        = (rampLoop 1 10 (some 35) 4 0 [] []).i * 10 ∧
    ((rampLoop 1 10 (some 35) 4 0 [] []).allocations).length
        = (rampLoop 1 10 (some 35) 4 0 [] []).i :=
  ⟨by decide, (claim_C3_ramp_state_invariant 1 10 35 4 [] (by decide)).1,
    (claim_C3_ramp_state_invariant 1 10 35 4 [] (by decide)).2.1⟩

/-- C2 counterexample: with chunk size `0` (`chunk_mb = 0`) the controller
performs no INIT validation and raises no `ConfigError`: after two iterations
the span exists, log records have been emitted, and the loop is still
running — contradicting "zero log records are emitted and zero spans are
created". -/
theorem claim_C2_counterexample :
    Event.spanStart ∈ (ramp_memory_and_fail 0 0 2).events ∧
    0 < ((ramp_memory_and_fail 0 0 2).events).countP isLogRecord ∧
    (ramp_memory_and_fail 0 0 2).result = RampResult.running := by
  decide

/-- C2 amended: `chunk_size_bytes ≤ 0` is NOT rejected at `INIT`: with
`chunk_mb = 0` the controller creates its correlation span, emits the start
log record plus one "Allocated chunk" record per iteration (`fuel + 1` log
records after `fuel` iterations), never reaches the cap, and raises nothing —
the loop runs indefinitely. -/
theorem claim_C2_zero_chunk_not_rejected (s fuel : Nat) :
    Event.spanStart ∈ (ramp_memory_and_fail 0 s fuel).events ∧
    ((ramp_memory_and_fail 0 s fuel).events).countP isLogRecord = fuel + 1 ∧
    (ramp_memory_and_fail 0 s fuel).result = RampResult.running ∧
    (ramp_memory_and_fail 0 s fuel).chunks = fuel := by
  have hT : ∀ j, capTriggered (some (400 * 1024 * 1024))
      ((j + 1) * (0 * 1024 * 1024)) = false := by
    intro j
    apply capTriggered_some_false
    simp
  have hloop := rampLoop_no_trigger 0 (0 * 1024 * 1024)
    (some (400 * 1024 * 1024)) hT fuel 0 []
    (startEvents 0 s (some (400 * 1024 * 1024)))
  rw [ramp_memory_and_fail_def, hloop.1]
  refine ⟨?_, ?_, rfl, by rw [hloop.2]; show 0 + fuel = fuel; omega⟩
  · rcases rampLoop_events_prefix 0 (0 * 1024 * 1024)
      (some (400 * 1024 * 1024)) fuel 0 []
      (startEvents 0 s (some (400 * 1024 * 1024))) with ⟨tail, htail⟩
    rw [htail]
    apply List.mem_append_left
    simp [startEvents]
  · rw [rampLoop_countP isLogRecord 0 (0 * 1024 * 1024)
      (some (400 * 1024 * 1024)) (fun a b => rfl) rfl fuel 0 []
      (startEvents 0 s (some (400 * 1024 * 1024))),
      startEvents_countP_log, hloop.2]
    omega

/-- The loop's `MemoryError` always carries the cap message. -/
lemma rampLoop_memErr_msg (cmb c : Nat) (mb : Option Nat) :
    ∀ (fuel i : Nat) (allocs : List Nat) (evs : List Event) (s : String),
      (rampLoop cmb c mb fuel i allocs evs).result = LoopResult.memErr s →
      s = capMessage mb := by
  intro fuel
  induction fuel with
  | zero => intro i allocs evs s hres; rw [rampLoop_zero] at hres; cases hres
  | succ n ih =>
    intro i allocs evs s hres
    cases h : capTriggered mb ((i + 1) * c) with
    | true =>
      rw [rampLoop_succ_trig cmb c mb n i allocs evs h] at hres
      cases hres
      rfl
    | false =>
      rw [rampLoop_succ_cont cmb c mb n i allocs evs h] at hres
      exact ih (i + 1) _ _ s hres

lemma startEvents_filter_errlog (cmb s : Nat) (mb : Option Nat) :
    (startEvents cmb s mb).filter isErrLog = [] := by
  cases mb with
  | none => simp [startEvents, isErrLog]
  | some m =>
    by_cases hm : m = 0 <;> simp [startEvents, hm, isErrLog]

/-- C4 counterexample: at `chunk_mb = 400` the failure path emits the
error-severity log record (`logger.exception`) BEFORE the span annotation
(`span.record_exception`), contradicting the claimed span-first order. -/
theorem claim_C4_counterexample :
    ((ramp_memory_and_fail 400 0 1).events).findIdx isErrLog
        < ((ramp_memory_and_fail 400 0 1).events).findIdx isRecordExc ∧
    ((ramp_memory_and_fail 400 0 1).events).any isRecordExc = true := by
  decide

/-- C4 amended: on entering FAILED the controller first emits one final
error-severity log record (`logger.exception`), then records the exception on
the span and sets the span's error status carrying the failure's message, and
then propagates the original failure unmodified: the trace ends with exactly
this log-then-span three-event suffix, and that log record is the only
error-severity record of the run. -/
theorem claim_C4_failure_annotation_order (cmb s fuel : Nat) (msg : String)
    (hres : (ramp_memory_and_fail cmb s fuel).result = RampResult.raised msg) :
    [Event.logErr "MemoryError triggered; demo complete",
     Event.spanRecordException msg,
     Event.spanSetStatus StatusCode.error msg]
      <:+ (ramp_memory_and_fail cmb s fuel).events ∧
    ((ramp_memory_and_fail cmb s fuel).events).filter isErrLog
      = [Event.logErr "MemoryError triggered; demo complete"] := by
  rw [ramp_memory_and_fail_def] at hres ⊢
  cases hr : (rampLoop cmb (cmb * 1024 * 1024) (some (400 * 1024 * 1024))
      fuel 0 [] (startEvents cmb s (some (400 * 1024 * 1024)))).result with
  | memErr m2 =>
    rw [hr] at hres
    dsimp only at hres
    injection hres with hmsg
    subst hmsg
    constructor
    · exact ⟨_, rfl⟩
    · rw [List.filter_append,
        rampLoop_filter_none isErrLog cmb (cmb * 1024 * 1024)
          (some (400 * 1024 * 1024)) (fun a b => rfl) rfl fuel 0 []
          (startEvents cmb s (some (400 * 1024 * 1024))),
        startEvents_filter_errlog]
      rfl
  | fuelOut =>
    rw [hr] at hres
    dsimp only at hres
    cases hres

/-- Witness for C4's amended theorem at `chunk_mb = 400`, one iteration. -/
theorem claim_C4_failure_annotation_order_witness :
    [Event.logErr "MemoryError triggered; demo complete",
     Event.spanRecordException (capMessage (some (400 * 1024 * 1024))),
     Event.spanSetStatus StatusCode.error
       (capMessage (some (400 * 1024 * 1024)))]
      <:+ (ramp_memory_and_fail 400 0 1).events ∧
    ((ramp_memory_and_fail 400 0 1).events).filter isErrLog
      = [Event.logErr "MemoryError triggered; demo complete"] :=
  claim_C4_failure_annotation_order 400 0 1
    (capMessage (some (400 * 1024 * 1024))) (by decide)

/-- C5: on every exit path of the run (normal completion, ramp failure, or
external interrupt), `main`'s `finally` block executes the shutdown sequence
exactly once, in the order: trace channel (span processor), then log channel
(log processor), then metric channel (metric reader), then the provider
objects that own those channels (logger provider, then meter provider). -/
theorem claim_C5_shutdown_order_every_exit (outcome : RampOutcome) :
    (mainRun outcome noFails).shutdown = shutdownOrder ∧
    shutdownOrder
      = [ShutdownStep.spanProcessor, ShutdownStep.logProcessor,
         ShutdownStep.metricReader, ShutdownStep.loggerProvider,
         ShutdownStep.meterProvider] ∧
    shutdownOrder.Nodup := by
  refine ⟨?_, rfl, by decide⟩
  cases outcome <;> simp [mainRun, runSteps_noFails]

/-- Flush behavior in which only the trace channel's shutdown raises. -/
def traceFlushFails : ShutdownStep → Bool
  | ShutdownStep.spanProcessor => true
  | _ => false

/-- C6 counterexample: when the trace channel's flush raises, none of the
remaining channels are attempted — the `finally` block's plain sequential
statements are fail-fast, not collect-and-continue. -/
theorem claim_C6_counterexample :
    (runSteps traceFlushFails shutdownOrder).1 = [ShutdownStep.spanProcessor] ∧
    ShutdownStep.logProcessor ∉ (runSteps traceFlushFails shutdownOrder).1 ∧
    ShutdownStep.metricReader ∉ (runSteps traceFlushFails shutdownOrder).1 := by
  decide

/-- C6 amended: shutdown is fail-fast, not collect-and-continue: a channel
whose flush raises is the last step attempted, so every channel later in the
shutdown order is skipped rather than still flushed. -/
theorem claim_C6_shutdown_failfast (f : ShutdownStep → Bool) (c : ShutdownStep)
    (hf : f c = true) (hmem : c ∈ (runSteps f shutdownOrder).1) :
    ((runSteps f shutdownOrder).1).getLast? = some c :=
  runSteps_failfast f c hf shutdownOrder hmem

/-- Witness for C6's amended theorem with the trace channel failing. -/
theorem claim_C6_shutdown_failfast_witness :
    ((runSteps traceFlushFails shutdownOrder).1).getLast?
      = some ShutdownStep.spanProcessor :=
  claim_C6_shutdown_failfast traceFlushFails ShutdownStep.spanProcessor
    (by decide) (by decide)

/-- C7: the process exit status encodes the outcome: whenever the ramp fails
with the cap-reached `MemoryError`, `main` exits with code 1 (via
`sys.exit(1)`), and exit code 0 occurs only when the ramp completed
cleanly. -/
theorem claim_C7_exit_codes (outcome : RampOutcome) :
    (∀ msg, outcome = RampOutcome.memoryError msg →
      (mainRun outcome noFails).exit = ExitStatus.code 1) ∧
    ((mainRun outcome noFails).exit = ExitStatus.code 0 →
      outcome = RampOutcome.completed) := by
  cases outcome <;> simp [mainRun, runSteps_noFails]

/-- Witness for C7 at a concrete `MemoryError` outcome. -/
theorem claim_C7_exit_codes_witness :
    (mainRun (RampOutcome.memoryError "m") noFails).exit = ExitStatus.code 1 :=
  (claim_C7_exit_codes (RampOutcome.memoryError "m")).1 "m" rfl

/-- C8: for every run, the number of "Allocated chunk" log records emitted
equals the number of chunks allocated; and the correlation span's status is
written only at failure: while the run has no failure the status has never
been set, and on failure it is set exactly once, to ERROR with a non-empty
message (the failure's own message). -/
theorem claim_C8_log_count_and_status (cmb s fuel : Nat) :
    ((ramp_memory_and_fail cmb s fuel).events).countP isChunkLog
        = (ramp_memory_and_fail cmb s fuel).chunks ∧
    ((ramp_memory_and_fail cmb s fuel).result = RampResult.running →
      ((ramp_memory_and_fail cmb s fuel).events).filter isStatus = []) ∧
    (∀ msg, (ramp_memory_and_fail cmb s fuel).result = RampResult.raised msg →
      ((ramp_memory_and_fail cmb s fuel).events).filter isStatus
          = [Event.spanSetStatus StatusCode.error msg] ∧ msg ≠ "") := by
  have hcount := rampLoop_countP isChunkLog cmb (cmb * 1024 * 1024)
    (some (400 * 1024 * 1024)) (fun a b => rfl) rfl fuel 0 []
    (startEvents cmb s (some (400 * 1024 * 1024)))
  have hfil := rampLoop_filter_none isStatus cmb (cmb * 1024 * 1024)
    (some (400 * 1024 * 1024)) (fun a b => rfl) rfl fuel 0 []
    (startEvents cmb s (some (400 * 1024 * 1024)))
  rw [ramp_memory_and_fail_def]
  cases hr : (rampLoop cmb (cmb * 1024 * 1024) (some (400 * 1024 * 1024))
      fuel 0 [] (startEvents cmb s (some (400 * 1024 * 1024)))).result with
  | memErr m2 =>
    dsimp only
    refine ⟨?_, ?_, ?_⟩
    · rw [List.countP_append, hcount, startEvents_countP_chunk]
      simp [List.countP_cons, isChunkLog]
    · intro hcontra
      cases hcontra
    · intro msg hmsg
      injection hmsg with h2
      subst h2
      constructor
      · rw [List.filter_append, hfil, startEvents_filter_status]
        rfl
      · have hm2 := rampLoop_memErr_msg cmb (cmb * 1024 * 1024)
          (some (400 * 1024 * 1024)) fuel 0 []
          (startEvents cmb s (some (400 * 1024 * 1024))) m2 hr
        rw [hm2]
        decide
  | fuelOut =>
    dsimp only
    refine ⟨?_, ?_, ?_⟩
    · rw [hcount, startEvents_countP_chunk]
      omega
    · intro _
      rw [hfil, startEvents_filter_status]
    · intro msg hmsg
      cases hmsg

/-- Witness for C8 at `chunk_mb = 400`, one iteration (failure point). -/
theorem claim_C8_log_count_and_status_witness :
    ((ramp_memory_and_fail 400 0 1).events).countP isChunkLog
        = (ramp_memory_and_fail 400 0 1).chunks ∧
    ((ramp_memory_and_fail 400 0 1).events).filter isStatus
        = [Event.spanSetStatus StatusCode.error
            (capMessage (some (400 * 1024 * 1024)))] ∧
    capMessage (some (400 * 1024 * 1024)) ≠ "" :=
  ⟨(claim_C8_log_count_and_status 400 0 1).1,
   ((claim_C8_log_count_and_status 400 0 1).2.2
     (capMessage (some (400 * 1024 * 1024))) (by decide)).1,
   ((claim_C8_log_count_and_status 400 0 1).2.2
     (capMessage (some (400 * 1024 * 1024))) (by decide)).2⟩

/-- C9: two runs with the same ramp configuration that differ only in
telemetry-sink health produce the same `RampRun` — the same chunk count, the
same allocation list, the same per-iteration records and failure point, the
same result — because the ramp's control flow never reads the sink; sink
health decides only which submitted records get delivered. -/
theorem claim_C9_sink_noninterference (cmb s fuel : Nat) (h1 h2 : Bool) :
    (runWithSink cmb s fuel h1).1 = (runWithSink cmb s fuel h2).1 := rfl

/-- C10: `ramp_memory_and_fail` never returns normally: with the hard-coded
400 MB cap, for every `chunk_mb ≥ 1` and every `sleep_seconds`, it raises the
cap-reached `MemoryError` after exactly `ceil(400 / chunk_mb)` iterations, so
`main` always exits with code 1 (the exit-code-0 path is unreachable); and
with `chunk_mb = 0` the loop never terminates on its own. -/
theorem claim_C10_never_returns_normally (cmb s fuel : Nat) (hc : 1 ≤ cmb)
    (hfuel : (400 + cmb - 1) / cmb ≤ fuel) :
    (ramp_memory_and_fail cmb s fuel).result
        = RampResult.raised (capMessage (some (400 * 1024 * 1024))) ∧
    (ramp_memory_and_fail cmb s fuel).chunks = (400 + cmb - 1) / cmb ∧
    mainConcrete cmb s fuel = some ⟨ExitStatus.code 1, shutdownOrder⟩ ∧
    (∀ f2, (ramp_memory_and_fail 0 s f2).result = RampResult.running) := by
  have hscale : (400 * 1024 * 1024 + cmb * 1024 * 1024 - 1)
      / (cmb * 1024 * 1024) = (400 + cmb - 1) / cmb := by
    rw [Nat.mul_assoc 400 1024 1024, Nat.mul_assoc cmb 1024 1024]
    exact ceil_scale 400 cmb (1024 * 1024) (by omega) (by omega) (by omega)
  have hcpos : 0 < cmb * 1024 * 1024 :=
    Nat.mul_pos (Nat.mul_pos (by omega) (by omega)) (by omega)
  have hcap := rampLoop_cap cmb (cmb * 1024 * 1024) (400 * 1024 * 1024)
    hcpos (by omega) fuel 0 [] (startEvents cmb s (some (400 * 1024 * 1024)))
    (ceil_pos (400 * 1024 * 1024) (cmb * 1024 * 1024) hcpos (by omega))
    (by rw [hscale]; omega)
  have hres : (ramp_memory_and_fail cmb s fuel).result
      = RampResult.raised (capMessage (some (400 * 1024 * 1024))) := by
    rw [ramp_memory_and_fail_def, hcap.1]
  have hchunks : (ramp_memory_and_fail cmb s fuel).chunks
      = (400 + cmb - 1) / cmb := by
    rw [ramp_memory_and_fail_def, hcap.1]
    dsimp only
    rw [hcap.2, hscale]
  have hzero : ∀ f2,
      (ramp_memory_and_fail 0 s f2).result = RampResult.running := by
    intro f2
    have hT : ∀ j, capTriggered (some (400 * 1024 * 1024))
        ((j + 1) * (0 * 1024 * 1024)) = false := by
      intro j
      apply capTriggered_some_false
      simp
    have hloop := rampLoop_no_trigger 0 (0 * 1024 * 1024)
      (some (400 * 1024 * 1024)) hT f2 0 []
      (startEvents 0 s (some (400 * 1024 * 1024)))
    rw [ramp_memory_and_fail_def, hloop.1]
  refine ⟨hres, hchunks, ?_, hzero⟩
  simp [mainConcrete, hres, mainRun, runSteps_noFails]

/-- Witness for C10 at `chunk_mb = 400` (one chunk reaches the cap), plus the
nonterminating `chunk_mb = 0` run at three iterations. -/
theorem claim_C10_never_returns_normally_witness :
    1 ≤ 400 ∧
    (ramp_memory_and_fail 400 0 1).result
        = RampResult.raised (capMessage (some (400 * 1024 * 1024))) ∧
    (ramp_memory_and_fail 400 0 1).chunks = (400 + 400 - 1) / 400 ∧
    mainConcrete 400 0 1 = some ⟨ExitStatus.code 1, shutdownOrder⟩ ∧
    (ramp_memory_and_fail 0 0 3).result = RampResult.running :=
  ⟨by decide,
   (claim_C10_never_returns_normally 400 0 1 (by decide) (by decide)).1,
   (claim_C10_never_returns_normally 400 0 1 (by decide) (by decide)).2.1,
   (claim_C10_never_returns_normally 400 0 1 (by decide) (by decide)).2.2.1,
   (claim_C10_never_returns_normally 400 0 1 (by decide) (by decide)).2.2.2 3⟩

end OomDemo
